import Mathlib

/-!
Shallow embedding of the ink! smart contract in `src/lib.rs` (an
artist-NFT token ledger) and verification of its specification.

The contract state `PSP34` holds a token ledger (`tokens`), an artist
registry (`artists`) and a `u32` counter (`next_artist_id`).  Each
`#[ink(message)]` becomes a pure Lean function; the calling principal
(`self.env().caller()`) and the attached payment
(`self.env().transferred_balance()`) are passed explicitly.  A panic
(`unwrap` on a missing key, or a failed `assert`) becomes `Except.error`:
the host rolls the whole call back, so an erroring call yields no
successor state.  Machine integers are modelled as `Nat`; the only
arithmetic where overflow can occur is the `u32` counter increment,
which is therefore taken modulo `2 ^ 32`.
-/

/-- `type TokenId = u32`.  Token ids are only used as map keys. -/
abbrev TokenId := Nat

/-- `type Balance = u128`.  Balances flow through `/ 10` and a
subtraction that cannot underflow, so plain `Nat` is faithful. -/
abbrev Balance := Nat

/-- `type ArtistId = u32`.  Artist ids are only used as map keys. -/
abbrev ArtistId := Nat

/-- Opaque 32-byte account identifier; only equality is used. -/
abbrev AccountId := Nat

/-- `enum Token`: a token is `Owned { price, owner }` or
`ForSale { price, artist }`. -/
inductive Token where
  | Owned (price : Balance) (owner : AccountId)
  | ForSale (price : Balance) (artist : ArtistId)
deriving DecidableEq, Repr

/-- `struct Artist { name: Vec<u8>, account_id: AccountId }`. -/
structure Artist where
  name : List Nat
  account_id : AccountId
deriving DecidableEq, Repr

/-- The `#[ink(storage)]` struct `PSP34`. -/
structure PSP34 where
  tokens : TokenId → Option Token
  artists : ArtistId → Option Artist
  next_artist_id : Nat

/-- The distinct fatal-abort (panic) causes of the contract's messages. -/
inductive Err where
  | missingToken
  | missingArtist
  | priceMismatch
  | notArtist
deriving DecidableEq, Repr

/-- `self.tokens.insert(id, token)`. -/
def insertToken (s : PSP34) (id : TokenId) (t : Token) : PSP34 :=
  { s with tokens := fun k => if k = id then some t else s.tokens k }

/-- `self.artists.insert(id, artist)`. -/
def insertArtist (s : PSP34) (id : ArtistId) (a : Artist) : PSP34 :=
  { s with artists := fun k => if k = id then some a else s.artists k }

/-- The `new` constructor: empty maps, counter `0`. -/
def PSP34.new : PSP34 :=
  { tokens := fun _ => none, artists := fun _ => none, next_artist_id := 0 }

/-- `set_token_artist(id, artist_id)`: `unwrap` the token (panic when
absent); on `Owned` only a debug print (no mutation); on `ForSale`
re-insert with the new artist and the same price. -/
def set_token_artist (s : PSP34) (id : TokenId) (artist_id : ArtistId) :
    Except Err PSP34 :=
  match s.tokens id with
  | none => .error .missingToken
  | some (Token.Owned _ _) => .ok s
  | some (Token.ForSale price _) =>
      .ok (insertToken s id (Token.ForSale price artist_id))

/-- `mint(id, price, artist_id)`: insert `Owned { price, owner: caller }`,
then call `set_token_artist(id, artist_id)`. -/
def mint (caller : AccountId) (s : PSP34) (id : TokenId) (price : Balance)
    (artist_id : ArtistId) : Except Err PSP34 :=
  set_token_artist (insertToken s id (Token.Owned price caller)) id artist_id

/-- `transfer(id, to)`: `unwrap` the token; when it is `Owned` and the
owner is the caller, re-insert `Owned { price: 0, owner: dest }`;
otherwise only a debug print. -/
def transfer (caller : AccountId) (s : PSP34) (id : TokenId)
    (dest : AccountId) : Except Err PSP34 :=
  match s.tokens id with
  | none => .error .missingToken
  | some (Token.Owned _ owner) =>
      if owner = caller then .ok (insertToken s id (Token.Owned 0 dest))
      else .ok s
  | some (Token.ForSale _ _) => .ok s

/-- `set_price(id, price)`: `unwrap` the token; when it is `Owned` and
the owner is the caller, re-insert `Owned { price, owner }`; otherwise
only a debug print. -/
def set_price (caller : AccountId) (s : PSP34) (id : TokenId)
    (price : Balance) : Except Err PSP34 :=
  match s.tokens id with
  | none => .error .missingToken
  | some (Token.Owned _ owner) =>
      if owner = caller then .ok (insertToken s id (Token.Owned price owner))
      else .ok s
  | some (Token.ForSale _ _) => .ok s

/-- `artist_account(id)`: `unwrap` the artist record (panic when
absent) and return its payout account. -/
def artist_account (s : PSP34) (id : ArtistId) : Except Err AccountId :=
  match s.artists id with
  | none => .error .missingArtist
  | some a => .ok a.account_id

/-- `buy(id)` with attached payment `value`: `unwrap` the token; on
`ForSale { price, artist }` resolve the artist's account (panic when
unregistered), assert `value == price` (panic otherwise), re-insert
`Owned { price: 0, owner: caller }` and emit the two outbound
transfers `(artist_account, value / 10)` then
`(caller, value - value / 10)`; on `Owned` only a debug print and no
transfers. -/
def buy (caller : AccountId) (value : Balance) (s : PSP34) (id : TokenId) :
    Except Err (PSP34 × List (AccountId × Balance)) :=
  match s.tokens id with
  | none => .error .missingToken
  | some (Token.ForSale price artist) =>
      match s.artists artist with
      | none => .error .missingArtist
      | some a =>
          if value = price then
            .ok (insertToken s id (Token.Owned 0 caller),
              [(a.account_id, value / 10), (caller, value - value / 10)])
          else .error .priceMismatch
  | some (Token.Owned _ _) => .ok (s, [])

/-- `set_artist(id, name, account_id)`: `assert!(caller == account_id)`
(panic otherwise), then insert the record. -/
def set_artist (caller : AccountId) (s : PSP34) (id : ArtistId)
    (name : List Nat) (account_id : AccountId) : Except Err PSP34 :=
  if caller = account_id then .ok (insertArtist s id ⟨name, account_id⟩)
  else .error .notArtist

/-- `get_token(id)`: pure lookup, `none` on absence. -/
def get_token (s : PSP34) (id : TokenId) : Option Token :=
  s.tokens id

/-- `next_artist_id()`: read the counter. -/
def read_artist_id (s : PSP34) : Nat :=
  s.next_artist_id

/-- `increment_artist_id()`: `*self.next_artist_id += 1` on a `u32`,
i.e. increment modulo `2 ^ 32`. -/
def increment_artist_id (s : PSP34) : PSP34 :=
  { s with next_artist_id := (s.next_artist_id + 1) % 2 ^ 32 }

/-- One contract message together with its arguments (the caller and,
for `buy`, the attached value, are supplied at `step`). -/
inductive Op where
  | mint (id : TokenId) (price : Balance) (artist_id : ArtistId)
  | transfer (id : TokenId) (dest : AccountId)
  | set_price (id : TokenId) (price : Balance)
  | buy (value : Balance) (id : TokenId)
  | set_artist (id : ArtistId) (name : List Nat) (account_id : AccountId)
  | artist_account (id : ArtistId)
  | get_token (id : TokenId)
  | set_token_artist (id : TokenId) (artist_id : ArtistId)
  | next_artist_id
  | increment_artist_id
deriving DecidableEq

/-- Dispatch one message called by `caller` against state `s`:
the state it leaves behind, or the panic that aborts the call. -/
def step (caller : AccountId) (op : Op) (s : PSP34) : Except Err PSP34 :=
  match op with
  | .mint id price aid => mint caller s id price aid
  | .transfer id dest => transfer caller s id dest
  | .set_price id price => set_price caller s id price
  | .buy value id => (buy caller value s id).map Prod.fst
  | .set_artist id name acc => set_artist caller s id name acc
  | .artist_account id => (artist_account s id).map fun _ => s
  | .get_token _ => .ok s
  | .set_token_artist id aid => set_token_artist s id aid
  | .next_artist_id => .ok s
  | .increment_artist_id => .ok (increment_artist_id s)

/-- Run a sequence of calls; an aborted call leaves the state
unchanged (host-provided whole-call atomicity). -/
def run (calls : List (AccountId × Op)) (s : PSP34) : PSP34 :=
  match calls with
  | [] => s
  | (c, op) :: rest =>
      match step c op s with
      | .ok s' => run rest s'
      | .error _ => run rest s

/-- Whether a token record is in the `Owned` variant. -/
def Token.isOwned : Token → Bool
  | Owned _ _ => true
  | ForSale _ _ => false

/-- Run a whole list of `set_price(id, price)` calls, each by its own
caller, against one token id (an aborted call changes nothing). -/
def set_price_many (calls : List (AccountId × Balance)) (id : TokenId)
    (s : PSP34) : PSP34 :=
  match calls with
  | [] => s
  | (c, p) :: rest =>
      match set_price c s id p with
      | .ok s' => set_price_many rest id s'
      | .error _ => set_price_many rest id s

/-- `n` consecutive `increment_artist_id` calls. -/
def increment_many (n : Nat) (s : PSP34) : PSP34 :=
  match n with
  | 0 => s
  | n + 1 => increment_many n (increment_artist_id s)

/-! ### Theorems -/

/-- Claim C1: for every prior ledger state (also when `id` is already
present with any record), after `mint(id, price, artistRef)` called by
principal `caller` the call succeeds, the record at `id` is exactly
`Owned { price, owner := caller }` (any pre-existing record silently
overwritten), and `get_token id` returns it. -/
theorem mint_ownership (caller : AccountId) (s : PSP34) (id : TokenId)
    (price : Balance) (aid : ArtistId) :
    mint caller s id price aid =
      .ok (insertToken s id (Token.Owned price caller)) ∧
    get_token (insertToken s id (Token.Owned price caller)) id =
      some (Token.Owned price caller) := by
  refine ⟨?_, ?_⟩
  · simp [mint, set_token_artist, insertToken]
  · simp [get_token, insertToken]

/-- Claim C10: calling `set_token_artist` on a token id absent from the
ledger is a fatal hard error (the lookup `unwrap` panics and aborts the
call), not a silent no-op. -/
theorem set_token_artist_missing (s : PSP34) (id : TokenId)
    (aid : ArtistId) (h : s.tokens id = none) :
    set_token_artist s id aid = .error Err.missingToken := by
  simp [set_token_artist, h]

/-- Witness for `set_token_artist_missing` on the fresh ledger. -/
theorem set_token_artist_missing_witness :
    PSP34.new.tokens 0 = none ∧
    set_token_artist PSP34.new 0 3 = .error Err.missingToken :=
  ⟨rfl, set_token_artist_missing PSP34.new 0 3 rfl⟩

/-- Claim C7: on a token id absent from the ledger, `transfer`,
`set_price` and `buy` abort fatally, as does `artist_account` on an
absent artist id, while `get_token` on the absent id just returns
`none` (a pure lookup, no failure, no mutation). -/
theorem missing_id_aborts (s : PSP34) (Q dest : AccountId) (v : Balance)
    (id : TokenId) (aid : ArtistId)
    (h1 : s.tokens id = none) (h2 : s.artists aid = none) :
    transfer Q s id dest = .error Err.missingToken ∧
    set_price Q s id v = .error Err.missingToken ∧
    buy Q v s id = .error Err.missingToken ∧
    artist_account s aid = .error Err.missingArtist ∧
    get_token s id = none := by
  refine ⟨?_, ?_, ?_, ?_, ?_⟩ <;>
    simp [transfer, set_price, buy, artist_account, get_token, h1, h2]

/-- Witness for `missing_id_aborts` on the fresh ledger. -/
theorem missing_id_aborts_witness :
    PSP34.new.tokens 0 = none ∧ PSP34.new.artists 0 = none ∧
    transfer 1 PSP34.new 0 2 = .error Err.missingToken ∧
    set_price 1 PSP34.new 0 5 = .error Err.missingToken ∧
    buy 1 5 PSP34.new 0 = .error Err.missingToken ∧
    artist_account PSP34.new 0 = .error Err.missingArtist ∧
    get_token PSP34.new 0 = none := by
  have h := missing_id_aborts PSP34.new 1 2 5 0 0 rfl rfl
  exact ⟨rfl, rfl, h.1, h.2.1, h.2.2.1, h.2.2.2.1, h.2.2.2.2⟩

/-- Claim C5: on a token `Owned { p, P }`, `transfer` called by any
`Q ≠ P` leaves the whole state (hence the record) unchanged, while
`transfer` called by `P` with target `dest` makes the record
`Owned { 0, dest }` — the stored price is exactly `0` after every
successful transfer, whatever it was before. -/
theorem transfer_authorization (s : PSP34) (id : TokenId) (p : Balance)
    (P : AccountId) (h : s.tokens id = some (Token.Owned p P)) :
    (∀ Q dest, Q ≠ P → transfer Q s id dest = .ok s) ∧
    (∀ dest, transfer P s id dest =
        .ok (insertToken s id (Token.Owned 0 dest)) ∧
      get_token (insertToken s id (Token.Owned 0 dest)) id =
        some (Token.Owned 0 dest)) := by
  refine ⟨fun Q dest hQ => ?_, fun dest => ⟨?_, ?_⟩⟩
  · have hPQ : ¬(P = Q) := fun e => hQ e.symm
    simp [transfer, h, hPQ]
  · simp [transfer, h]
  · simp [get_token, insertToken]

/-- Witness for `transfer_authorization`: owner `1`, stranger `2`. -/
theorem transfer_authorization_witness :
    (insertToken PSP34.new 0 (Token.Owned 5 1)).tokens 0 =
      some (Token.Owned 5 1) ∧
    transfer 2 (insertToken PSP34.new 0 (Token.Owned 5 1)) 0 3 =
      .ok (insertToken PSP34.new 0 (Token.Owned 5 1)) ∧
    transfer 1 (insertToken PSP34.new 0 (Token.Owned 5 1)) 0 3 =
      .ok (insertToken (insertToken PSP34.new 0 (Token.Owned 5 1)) 0
        (Token.Owned 0 3)) := by
  have h := transfer_authorization (insertToken PSP34.new 0 (Token.Owned 5 1))
    0 5 1 rfl
  exact ⟨rfl, h.1 2 3 (by decide), (h.2 3).1⟩

/-- Claim C6: `set_artist(id, name, account_id)` succeeds (inserting or
overwriting the record at `id`) exactly when the caller equals
`account_id`; any other caller gets a fatal assertion failure, so the
registry entry is untouched (the aborted call yields no state). -/
theorem set_artist_self_only (caller : AccountId) (s : PSP34)
    (id : ArtistId) (name : List Nat) (acc : AccountId) :
    (caller = acc →
      set_artist caller s id name acc = .ok (insertArtist s id ⟨name, acc⟩) ∧
      (insertArtist s id ⟨name, acc⟩).artists id = some ⟨name, acc⟩) ∧
    (caller ≠ acc → set_artist caller s id name acc = .error Err.notArtist) := by
  refine ⟨fun he => ⟨?_, ?_⟩, fun hne => ?_⟩
  · simp [set_artist, he]
  · simp [insertArtist]
  · simp [set_artist, hne]

/-- Witness for `set_artist_self_only`: self-call by `4` succeeds,
call by `9` on behalf of `4` aborts. -/
theorem set_artist_self_only_witness :
    set_artist 4 PSP34.new 0 [65] 4 =
      .ok (insertArtist PSP34.new 0 ⟨[65], 4⟩) ∧
    set_artist 9 PSP34.new 0 [65] 4 = .error Err.notArtist := by
  exact ⟨(set_artist_self_only 4 PSP34.new 0 [65] 4).1 rfl |>.1,
    (set_artist_self_only 9 PSP34.new 0 [65] 4).2 (by decide)⟩

/-- A `set_price` call whose caller is not the owner (or on a
non-`Owned` record) returns normally with the state untouched. -/
theorem set_price_rejected (c : AccountId) (s : PSP34) (id : TokenId)
    (p : Balance) (t : Token) (h : s.tokens id = some t)
    (hc : ∀ q P, t = Token.Owned q P → c ≠ P) :
    set_price c s id p = .ok s := by
  cases t with
  | ForSale q a => simp [set_price, h]
  | Owned q P =>
      have hPc : ¬(P = c) := fun e => hc q P rfl e.symm
      simp [set_price, h, hPc]

/-- Claim C8: on a token `Owned { q, P }`, `set_price(id, v)` called by
`P` yields `Owned { v, P }` (owner unchanged); and any number of
`set_price` calls whose callers are all different from the owner (or
made while the record is non-`Owned`) leave the whole state, hence the
stored record and its price, unchanged. -/
theorem set_price_owner_and_noop (s : PSP34) (id : TokenId) (t : Token)
    (h : s.tokens id = some t) :
    (∀ q P v, t = Token.Owned q P →
      set_price P s id v = .ok (insertToken s id (Token.Owned v P)) ∧
      get_token (insertToken s id (Token.Owned v P)) id =
        some (Token.Owned v P)) ∧
    (∀ calls : List (AccountId × Balance),
      (∀ cp ∈ calls, ∀ q P, t = Token.Owned q P → cp.1 ≠ P) →
      set_price_many calls id s = s) := by
  refine ⟨fun q P v ht => ?_, fun calls hcalls => ?_⟩
  · subst ht
    exact ⟨by simp [set_price, h], by simp [get_token, insertToken]⟩
  · induction calls with
    | nil => rfl
    | cons cp rest ih =>
        obtain ⟨c, p⟩ := cp
        have h1 : set_price c s id p = .ok s :=
          set_price_rejected c s id p t h
            (hcalls (c, p) (List.mem_cons_self _ _))
        have h2 := ih fun cp hcp => hcalls cp (List.mem_cons_of_mem _ hcp)
        simpa [set_price_many, h1] using h2

/-- Witness for `set_price_owner_and_noop`: owner `1` re-prices to `7`;
two calls by strangers `2` and `3` change nothing. -/
theorem set_price_owner_and_noop_witness :
    set_price 1 (insertToken PSP34.new 0 (Token.Owned 5 1)) 0 7 =
      .ok (insertToken (insertToken PSP34.new 0 (Token.Owned 5 1)) 0
        (Token.Owned 7 1)) ∧
    set_price_many [(2, 9), (3, 11)] 0
      (insertToken PSP34.new 0 (Token.Owned 5 1)) =
      insertToken PSP34.new 0 (Token.Owned 5 1) := by
  have h := set_price_owner_and_noop (insertToken PSP34.new 0 (Token.Owned 5 1))
    0 (Token.Owned 5 1) rfl
  refine ⟨(h.1 5 1 7 rfl).1, h.2 [(2, 9), (3, 11)] ?_⟩
  intro cp hcp q P ht
  cases ht
  simp only [List.mem_cons, List.not_mem_nil, or_false] at hcp
  rcases hcp with h2 | h3
  · subst h2; decide
  · subst h3; decide

/-- Claim C3: on a token `ForSale { V, aid }` whose artist `aid` is
registered with payout account `a.account_id`, `buy` with attached
payment exactly `V` succeeds, the record becomes
`Owned { 0, caller }`, and exactly two outbound transfers are issued:
`V / 10` to the artist's payout account, then `V - V / 10` back to the
calling principal. -/
theorem buy_payment_split (caller : AccountId) (s : PSP34) (id : TokenId)
    (V : Balance) (aid : ArtistId) (a : Artist)
    (h1 : s.tokens id = some (Token.ForSale V aid))
    (h2 : s.artists aid = some a) :
    buy caller V s id =
      .ok (insertToken s id (Token.Owned 0 caller),
        [(a.account_id, V / 10), (caller, V - V / 10)]) ∧
    get_token (insertToken s id (Token.Owned 0 caller)) id =
      some (Token.Owned 0 caller) := by
  refine ⟨?_, ?_⟩
  · simp [buy, h1, h2]
  · simp [get_token, insertToken]

/-- Witness for `buy_payment_split` with `V = 100`: the artist's
payout account `5` receives `10`, the buyer `2` receives `90`. -/
theorem buy_payment_split_witness :
    buy 2 100
      (insertArtist (insertToken PSP34.new 0 (Token.ForSale 100 7)) 7 ⟨[65], 5⟩)
      0 =
      .ok (insertToken
          (insertArtist (insertToken PSP34.new 0 (Token.ForSale 100 7)) 7
            ⟨[65], 5⟩)
          0 (Token.Owned 0 2),
        [(5, 10), (2, 90)]) := by
  have h := buy_payment_split 2
    (insertArtist (insertToken PSP34.new 0 (Token.ForSale 100 7)) 7 ⟨[65], 5⟩)
    0 100 7 ⟨[65], 5⟩ rfl rfl
  exact h.1

/-- Claim C4: on a token `ForSale { V, _ }`, `buy` with attached value
different from `V` never succeeds — the call aborts fatally, so the
ledger is left unmutated; when the listed artist is registered the
abort is precisely the `assert_eq!(value, price)` failure. -/
theorem buy_price_mismatch (caller : AccountId) (value : Balance)
    (s : PSP34) (id : TokenId) (V : Balance) (aid : ArtistId)
    (h1 : s.tokens id = some (Token.ForSale V aid)) (h2 : value ≠ V) :
    (buy caller value s id).toOption = none ∧
    (∀ a, s.artists aid = some a →
      buy caller value s id = .error Err.priceMismatch) := by
  refine ⟨?_, fun a ha => ?_⟩
  · cases h3 : s.artists aid with
    | none => simp [buy, h1, h3, Except.toOption]
    | some a => simp [buy, h1, h3, h2, Except.toOption]
  · simp [buy, h1, ha, h2]

/-- Witness for `buy_price_mismatch`: paying `99` for a token listed
at `100` aborts with the price assertion. -/
theorem buy_price_mismatch_witness :
    (buy 2 99
      (insertArtist (insertToken PSP34.new 0 (Token.ForSale 100 7)) 7 ⟨[65], 5⟩)
      0).toOption = none ∧
    buy 2 99
      (insertArtist (insertToken PSP34.new 0 (Token.ForSale 100 7)) 7 ⟨[65], 5⟩)
      0 = .error Err.priceMismatch := by
  have h := buy_price_mismatch 2 99
    (insertArtist (insertToken PSP34.new 0 (Token.ForSale 100 7)) 7 ⟨[65], 5⟩)
    0 100 7 rfl (by decide)
  exact ⟨h.1, h.2 ⟨[65], 5⟩ rfl⟩

/-- Inserting an `Owned` token preserves the all-tokens-`Owned`
invariant. -/
theorem insertToken_preserves_owned (s : PSP34) (id : TokenId) (t : Token)
    (hs : ∀ k u, s.tokens k = some u → u.isOwned = true)
    (ht : t.isOwned = true) :
    ∀ k u, (insertToken s id t).tokens k = some u → u.isOwned = true := by
  intro k u hk
  simp only [insertToken] at hk
  split at hk
  · exact Option.some.inj hk ▸ ht
  · exact hs k u hk

/-- Every successful `step` preserves the all-tokens-`Owned`
invariant: no operation of the contract ever writes a `ForSale`
record unless one was already present. -/
theorem step_preserves_owned (c : AccountId) (op : Op) (s s' : PSP34)
    (hs : ∀ k u, s.tokens k = some u → u.isOwned = true)
    (h : step c op s = .ok s') :
    ∀ k u, s'.tokens k = some u → u.isOwned = true := by
  cases op with
  | mint id p aid =>
      simp only [step, mint, set_token_artist] at h
      split at h
      · rename_i heq
        exact absurd heq (by simp [insertToken])
      · injection h with h
        exact h ▸ insertToken_preserves_owned s id _ hs rfl
      · rename_i price aold heq
        simp [insertToken] at heq
  | transfer id dest =>
      simp only [step, transfer] at h
      split at h
      · exact absurd h (by simp)
      · split at h
        · injection h with h
          exact h ▸ insertToken_preserves_owned s id _ hs rfl
        · injection h with h
          exact h ▸ hs
      · injection h with h
        exact h ▸ hs
  | set_price id p =>
      simp only [step, set_price] at h
      split at h
      · exact absurd h (by simp)
      · split at h
        · injection h with h
          exact h ▸ insertToken_preserves_owned s id _ hs rfl
        · injection h with h
          exact h ▸ hs
      · injection h with h
        exact h ▸ hs
  | buy v id =>
      simp only [step, buy, Except.map] at h
      split at h
      · exact absurd h (by simp)
      · rename_i v12 heq
        injection h with h
        split at heq
        · exact absurd heq (by simp)
        · split at heq
          · exact absurd heq (by simp)
          · split at heq
            · injection heq with heq
              cases heq
              subst h
              exact insertToken_preserves_owned s id _ hs rfl
            · exact absurd heq (by simp)
        · injection heq with heq
          cases heq
          subst h
          exact hs
  | set_artist id name acc =>
      simp only [step, set_artist] at h
      split at h
      · injection h with h
        exact h ▸ hs
      · exact absurd h (by simp)
  | artist_account id =>
      simp only [step, artist_account, Except.map] at h
      split at h
      · exact absurd h (by simp)
      · injection h with h
        exact h ▸ hs
  | get_token id =>
      injection h with h
      exact h ▸ hs
  | set_token_artist id aid =>
      simp only [step, set_token_artist] at h
      split at h
      · exact absurd h (by simp)
      · injection h with h
        exact h ▸ hs
      · rename_i p aold hts
        exact absurd (hs id _ hts) (by simp [Token.isOwned])
  | next_artist_id =>
      injection h with h
      exact h ▸ hs
  | increment_artist_id =>
      injection h with h
      exact h ▸ hs

/-- The all-tokens-`Owned` invariant holds along any run. -/
theorem run_preserves_owned (calls : List (AccountId × Op)) (s : PSP34)
    (hs : ∀ k u, s.tokens k = some u → u.isOwned = true) :
    ∀ k u, (run calls s).tokens k = some u → u.isOwned = true := by
  induction calls generalizing s with
  | nil => exact hs
  | cons co rest ih =>
      obtain ⟨c, op⟩ := co
      simp only [run]
      cases hstep : step c op s with
      | ok s' => exact ih s' (step_preserves_owned c op s s' hs hstep)
      | error e => exact ih s hs

/-- Claim C2: no sequence of contract calls starting from the freshly
constructed ledger ever produces a `ForSale` (Listed) record — every
reachable token is `Owned`, so the Owned → Listed transition claimed
for the artist-association path is unreachable in the code as written
(`set_token_artist` only rewrites records that are already `ForSale`,
and `mint` always inserts `Owned` before calling it). -/
theorem forsale_unreachable (calls : List (AccountId × Op)) (id : TokenId)
    (t : Token) (h : get_token (run calls PSP34.new) id = some t) :
    t.isOwned = true :=
  run_preserves_owned calls PSP34.new
    (fun _ _ hk => absurd hk (by simp [PSP34.new])) id t h

/-- Witness for `forsale_unreachable`: the very scenario the spec
describes — mint token `0`, then associate artist `7` — leaves the
token `Owned { 100, minter }`, still not Listed. -/
theorem forsale_unreachable_witness :
    get_token (run [(2, Op.mint 0 100 7), (2, Op.set_token_artist 0 7)]
        PSP34.new) 0 = some (Token.Owned 100 2) ∧
    (Token.Owned 100 2).isOwned = true :=
  ⟨rfl, forsale_unreachable [(2, Op.mint 0 100 7), (2, Op.set_token_artist 0 7)]
    0 (Token.Owned 100 2) rfl⟩

/-- Every successful `step` either leaves the artist-id counter
unchanged, or is `increment_artist_id` and bumps it modulo `2 ^ 32`. -/
theorem step_counter (c : AccountId) (op : Op) (s s' : PSP34)
    (h : step c op s = .ok s') :
    read_artist_id s' = read_artist_id s ∨
      (op = Op.increment_artist_id ∧
        read_artist_id s' = (read_artist_id s + 1) % 2 ^ 32) := by
  cases op with
  | mint id p aid =>
      simp only [step, mint, set_token_artist] at h
      split at h
      · rename_i heq
        exact absurd heq (by simp [insertToken])
      · injection h with h
        cases h
        exact Or.inl rfl
      · rename_i price aold heq
        simp [insertToken] at heq
  | transfer id dest =>
      simp only [step, transfer] at h
      split at h
      · exact absurd h (by simp)
      · split at h <;> (injection h with h; cases h; exact Or.inl rfl)
      · injection h with h
        cases h
        exact Or.inl rfl
  | set_price id p =>
      simp only [step, set_price] at h
      split at h
      · exact absurd h (by simp)
      · split at h <;> (injection h with h; cases h; exact Or.inl rfl)
      · injection h with h
        cases h
        exact Or.inl rfl
  | buy v id =>
      simp only [step, buy, Except.map] at h
      split at h
      · exact absurd h (by simp)
      · rename_i v12 heq
        injection h with h
        split at heq
        · exact absurd heq (by simp)
        · split at heq
          · exact absurd heq (by simp)
          · split at heq
            · injection heq with heq
              cases heq
              subst h
              exact Or.inl rfl
            · exact absurd heq (by simp)
        · injection heq with heq
          cases heq
          subst h
          exact Or.inl rfl
  | set_artist id name acc =>
      simp only [step, set_artist] at h
      split at h
      · injection h with h
        cases h
        exact Or.inl rfl
      · exact absurd h (by simp)
  | artist_account id =>
      simp only [step, artist_account, Except.map] at h
      split at h
      · exact absurd h (by simp)
      · injection h with h
        cases h
        exact Or.inl rfl
  | get_token id =>
      injection h with h
      cases h
      exact Or.inl rfl
  | set_token_artist id aid =>
      simp only [step, set_token_artist] at h
      split at h
      · exact absurd h (by simp)
      · injection h with h
        cases h
        exact Or.inl rfl
      · injection h with h
        cases h
        exact Or.inl rfl
  | next_artist_id =>
      injection h with h
      cases h
      exact Or.inl rfl
  | increment_artist_id =>
      injection h with h
      cases h
      exact Or.inr ⟨rfl, rfl⟩

/-- After `n` increments the counter reads `(initial + n) % 2 ^ 32`. -/
theorem increment_many_counter (n : Nat) (s : PSP34)
    (hlt : read_artist_id s < 2 ^ 32) :
    read_artist_id (increment_many n s) = (read_artist_id s + n) % 2 ^ 32 := by
  induction n generalizing s with
  | zero =>
      simp only [increment_many, Nat.add_zero]
      exact (Nat.mod_eq_of_lt hlt).symm
  | succ n ih =>
      have h1 : read_artist_id (increment_artist_id s) =
          (read_artist_id s + 1) % 2 ^ 32 := rfl
      have h2 : read_artist_id (increment_artist_id s) < 2 ^ 32 := by
        rw [h1]
        exact Nat.mod_lt _ (by norm_num)
      have h3 : read_artist_id s + 1 + n = read_artist_id s + (n + 1) := by
        omega
      rw [increment_many, ih _ h2, h1, Nat.mod_add_mod, h3]

/-- A replicated list of `increment_artist_id` calls runs to
`increment_many`. -/
theorem run_replicate_increment (n : Nat) (c : AccountId) (s : PSP34) :
    run (List.replicate n (c, Op.increment_artist_id)) s =
      increment_many n s := by
  induction n generalizing s with
  | zero => rfl
  | succ n ih =>
      simp only [List.replicate, run, step, increment_many]
      exact ih _

/-- Claim C9 counterexample: the `u32` counter wraps.  After
`2 ^ 32 - 1` calls of `increment_artist_id` the reading is
`2 ^ 32 - 1`, and one further call makes it read `0` — the reading
decreased, so it is not monotonically non-decreasing over every
sequence of operations, and that call did not increase it by one. -/
theorem artist_counter_wraps :
    read_artist_id (run (List.replicate (2 ^ 32 - 1)
        (0, Op.increment_artist_id)) PSP34.new) = 2 ^ 32 - 1 ∧
    read_artist_id (run (List.replicate (2 ^ 32)
        (0, Op.increment_artist_id)) PSP34.new) = 0 := by
  have h0 : read_artist_id PSP34.new < 2 ^ 32 := by
    norm_num [read_artist_id, PSP34.new]
  constructor
  · rw [run_replicate_increment, increment_many_counter _ _ h0]
    norm_num [read_artist_id, PSP34.new]
  · rw [run_replicate_increment, increment_many_counter _ _ h0]
    norm_num [read_artist_id, PSP34.new]

/-- Claim C9 (amended): the counter is `0` at construction, no
operation other than `increment_artist_id` changes it (in particular
`set_artist` leaves it unchanged), each `increment_artist_id` sets it
to `(old + 1) % 2 ^ 32` — so it increases by one, and the value read
by `next_artist_id` is non-decreasing across a step, exactly as long
as the counter has not yet reached `2 ^ 32 - 1` (where the `u32`
wraps to `0`). -/
theorem artist_counter_spec :
    read_artist_id PSP34.new = 0 ∧
    (∀ c op s s', op ≠ Op.increment_artist_id → step c op s = .ok s' →
      read_artist_id s' = read_artist_id s) ∧
    (∀ s, read_artist_id (increment_artist_id s) =
      (read_artist_id s + 1) % 2 ^ 32) ∧
    (∀ c op s s', read_artist_id s < 2 ^ 32 - 1 → step c op s = .ok s' →
      read_artist_id s ≤ read_artist_id s') := by
  refine ⟨rfl, fun c op s s' hne h => ?_, fun s => rfl,
    fun c op s s' hlt h => ?_⟩
  · rcases step_counter c op s s' h with he | ⟨hop, _⟩
    · exact he
    · exact absurd hop hne
  · rcases step_counter c op s s' h with he | ⟨_, he⟩
    · exact he.ge
    · rw [he, Nat.mod_eq_of_lt (by omega)]
      omega

/-- Witness for `artist_counter_spec`: a `set_artist` call leaves the
counter unchanged, and one increment from the fresh state does not
decrease the reading. -/
theorem artist_counter_spec_witness :
    read_artist_id (insertArtist PSP34.new 0 ⟨[65], 1⟩) =
      read_artist_id PSP34.new ∧
    read_artist_id PSP34.new ≤
      read_artist_id (increment_artist_id PSP34.new) :=
  ⟨artist_counter_spec.2.1 1 (Op.set_artist 0 [65] 1) PSP34.new
      (insertArtist PSP34.new 0 ⟨[65], 1⟩) (by decide) rfl,
    artist_counter_spec.2.2.2 0 Op.increment_artist_id PSP34.new
      (increment_artist_id PSP34.new) (by decide) rfl⟩
